import Mathlib

/-!
Verification of the heap object-graph traversal engine in
`src/util/heap_dump_dot.rs`: the sanity checker (`check_gc`, `SanityChecker`)
and the graph dumper (`graph::dump_dot`, `HeapGraphDumper`), shallowly
embedded in Lean.  Object and slot handles are modelled as natural numbers
(identity handles); the VM-supplied capabilities (slot loading, conservative
object scanning, node attributes) are bundled in a `Heap` record; the
user-supplied validity predicate is a `ValidityPredicate` record.  Rust
panics (`expect` / `unwrap` / `panic!`) are modelled as `Except.error` /
dedicated outcome constructors; the unbounded traversal loops take an
explicit fuel parameter, with a distinguished out-of-fuel result so that
running out of fuel is never confused with normal completion.
-/

/-- `ObjectReference`: opaque identity handle for a heap object. -/
abbrev ObjectReference := Nat

/-- `VMSlot`: opaque handle for a reference-holding location. -/
abbrev VMSlot := Nat

/-- `NodeAttr` (from `graph::NodeAttr`): rendering metadata for a node.
`String(key, value)`, `Number(key, value : usize)`, `Flag(key)`. -/
inductive NodeAttr where
  | String (key value : String)
  | Number (key : String) (value : Nat)
  | Flag (key : String)
deriving Repr, DecidableEq

/-- Bundles the VM-supplied capabilities consumed by the traversal engine:
`Slot::load` (`slotLoad`), `ConservativeScanning::conservatively_scan_object`
(`scanObject` is the sequence of slots the scanner reports to the
`SlotVisitor`, in call order), and `NodeAttrs::node_attrs` (`nodeAttrs`). -/
structure Heap where
  slotLoad : VMSlot → Option ObjectReference
  scanObject : ObjectReference → List VMSlot
  nodeAttrs : ObjectReference → List NodeAttr

/-- The user-supplied `ValidityPredicate` trait: `is_valid_node` and
`is_valid_slot`, each returning `Result<(), String>`. -/
structure ValidityPredicate where
  is_valid_node : ObjectReference → Except String Unit
  is_valid_slot : VMSlot → Except String Unit

/-- `Error` (the error-record enum): `BadEdge(slot, reason)` or
`BadNode(object, reason)`. -/
inductive Error where
  | BadEdge (slot : VMSlot) (reason : String)
  | BadNode (node : ObjectReference) (reason : String)
deriving Repr, DecidableEq

/-- The root enumeration capability `scan_vm_specific_roots` invokes the
`RootsWorkFactory` callbacks; a run of it is modelled as the sequence of
callback invocations it performs, in order. -/
inductive RootEvent where
  | slots (slots : List VMSlot)
  | pinning (nodes : List ObjectReference)
  | tpinning (nodes : List ObjectReference)
deriving Repr, DecidableEq

/-- `WorkFactory`: the shared error log (`errors`, a `Vec` appended at the
end) and the work queue (`work_list`, a FIFO `SegQueue`: pushed at the back,
popped at the front). -/
structure WorkFactory where
  errors : List Error
  work_list : List ObjectReference
deriving Repr, DecidableEq

/-- `WorkFactory::push_error`. -/
def WorkFactory.push_error (wf : WorkFactory) (e : Error) : WorkFactory :=
  { wf with errors := wf.errors ++ [e] }

/-- `WorkFactory::push_slot`: validate the slot; if valid, load it with
`slot.load().expect("invalid")` — a load of `None` panics (modelled as
`Except.error "invalid"`) — and push the loaded node; if invalid, append
`BadEdge(slot, reason)` to the error log. -/
def WorkFactory.push_slot (heap : Heap) (pred : ValidityPredicate)
    (wf : WorkFactory) (slot : VMSlot) : Except String WorkFactory :=
  match pred.is_valid_slot slot with
  | .ok _ =>
    match heap.slotLoad slot with
    | some node => .ok { wf with work_list := wf.work_list ++ [node] }
    | none => .error "invalid"
  | .error e => .ok { wf with errors := wf.errors ++ [Error.BadEdge slot e] }

/-- `WorkFactory::push_nodes`: push a batch of objects directly onto the
work queue, with no validity checking. -/
def WorkFactory.push_nodes (wf : WorkFactory) (nodes : List ObjectReference) :
    WorkFactory :=
  { wf with work_list := wf.work_list ++ nodes }

/-- The `RootsWorkFactory` impl for `WorkFactory`:
`create_process_roots_work` pushes each slot through `push_slot`;
the pinning and tpinning variants go through `push_nodes`. -/
def WorkFactory.handle_root_event (heap : Heap) (pred : ValidityPredicate)
    (wf : WorkFactory) : RootEvent → Except String WorkFactory
  | .slots ss => ss.foldlM (WorkFactory.push_slot heap pred) wf
  | .pinning ns => .ok (wf.push_nodes ns)
  | .tpinning ns => .ok (wf.push_nodes ns)

/-- A run of `scan_vm_specific_roots` against a `WorkFactory`: perform the
enumerated callback invocations in order. -/
def scan_vm_specific_roots (heap : Heap) (pred : ValidityPredicate)
    (events : List RootEvent) (wf : WorkFactory) : Except String WorkFactory :=
  events.foldlM (WorkFactory.handle_root_event heap pred) wf

/-- `SanityChecker`: the visited set (a `HashSet`, modelled as the list of
members in insertion order) and the shared `WorkFactory`. -/
structure SanityChecker where
  visited : List ObjectReference
  worker : WorkFactory
deriving Repr, DecidableEq

/-- `SanityChecker::new`: empty visited set, empty error log, empty queue. -/
def SanityChecker.new : SanityChecker := ⟨[], ⟨[], []⟩⟩

/-- `SanityChecker::check_node`: skip if visited; otherwise insert into the
visited set, then apply the node validity predicate: on success invoke the
conservative scanner, forwarding every reported slot to
`WorkFactory::push_slot` (the checker's `visit_slot`); on failure append
`BadNode(node, reason)`. -/
def SanityChecker.check_node (heap : Heap) (pred : ValidityPredicate)
    (c : SanityChecker) (node : ObjectReference) : Except String SanityChecker :=
  if node ∈ c.visited then .ok c
  else
    let c1 : SanityChecker := { c with visited := c.visited ++ [node] }
    match pred.is_valid_node node with
    | .ok _ =>
      (heap.scanObject node).foldlM
        (fun c2 slot => do
          let wf ← WorkFactory.push_slot heap pred c2.worker slot
          pure { c2 with worker := wf })
        c1
    | .error e => .ok { c1 with worker := c1.worker.push_error (Error.BadNode node e) }

/-- Result of running a fuelled traversal loop: normal completion, a Rust
panic, or fuel exhaustion (a modelling artifact, kept distinct). -/
inductive RunResult (α : Type) where
  | ok (a : α)
  | panicked (msg : String)
  | fuelOut
deriving Repr, DecidableEq

/-- The drain loop of `SanityChecker::check_roots`: repeatedly pop the work
queue and `check_node` the popped object until the queue is empty. -/
def SanityChecker.drain (heap : Heap) (pred : ValidityPredicate) :
    Nat → SanityChecker → RunResult SanityChecker
  | 0, _ => .fuelOut
  | fuel + 1, c =>
    match c.worker.work_list with
    | [] => .ok c
    | node :: rest =>
      match SanityChecker.check_node heap pred
          { c with worker := { c.worker with work_list := rest } } node with
      | .error e => .panicked e
      | .ok c' => SanityChecker.drain heap pred fuel c'

/-- `SanityChecker::check_roots`: run the root enumeration with the shared
`WorkFactory`, then drain the work queue. -/
def SanityChecker.check_roots (heap : Heap) (pred : ValidityPredicate)
    (events : List RootEvent) (fuel : Nat) (c : SanityChecker) :
    RunResult SanityChecker :=
  match scan_vm_specific_roots heap pred events c.worker with
  | .error e => .panicked e
  | .ok wf => SanityChecker.drain heap pred fuel { c with worker := wf }

/-- Outcome of `check_gc`: normal return, the deliberate
`panic!("things went poorly")` after printing every recorded error
(`printed` is the sequence of `println!`-ed error records, in order), a
panic raised inside the traversal itself, or fuel exhaustion. -/
inductive GcOutcome where
  | ok
  | panicked (printed : List Error)
  | tracePanic (msg : String)
  | fuelOut
deriving Repr, DecidableEq

/-- `check_gc`: build a fresh `SanityChecker`, run `check_roots`, then lock
the error log; if it is non-empty, print every recorded error (in order)
and `panic!`; otherwise return normally. -/
def check_gc (heap : Heap) (pred : ValidityPredicate)
    (events : List RootEvent) (fuel : Nat) : GcOutcome :=
  match SanityChecker.check_roots heap pred events fuel SanityChecker.new with
  | .panicked e => .tracePanic e
  | .fuelOut => .fuelOut
  | .ok c => if c.worker.errors = [] then .ok else .panicked c.worker.errors

namespace graph

/-- Decimal digit character, as produced by Rust's `Display` for `usize`. -/
def digitChar (d : Nat) : Char := Char.ofNat (48 + d)

/-- Accumulator loop for decimal rendering (fuelled; fuel `n + 1` always
suffices since the value shrinks by a factor of ten per step). -/
def natDigitsAux : Nat → Nat → List Char → List Char
  | 0, _, acc => acc
  | fuel + 1, n, acc =>
    let acc' := digitChar (n % 10) :: acc
    if n / 10 = 0 then acc' else natDigitsAux fuel (n / 10) acc'

/-- Decimal rendering of a `usize`, as `write!("{}", value)` produces. -/
def natToString (n : Nat) : String := String.mk (natDigitsAux (n + 1) n [])

/-- Lowercase hexadecimal digit character. -/
def hexDigitChar (d : Nat) : Char :=
  if d < 10 then Char.ofNat (48 + d) else Char.ofNat (87 + d)

/-- Accumulator loop for hexadecimal rendering (fuelled like `natDigitsAux`). -/
def hexDigitsAux : Nat → Nat → List Char → List Char
  | 0, _, acc => acc
  | fuel + 1, n, acc =>
    let acc' := hexDigitChar (n % 16) :: acc
    if n / 16 = 0 then acc' else hexDigitsAux fuel (n / 16) acc'

/-- `0x`-prefixed lowercase hexadecimal, as Rust's `{:p}` pointer format. -/
def natToHex (n : Nat) : String := "0x" ++ String.mk (hexDigitsAux (n + 1) n [])

/-- `HeapGraphDumper::to_node_id`: `format!("\"{:p}\"", address)` — the
object's address rendered as a quoted pointer. -/
def to_node_id (obj : ObjectReference) : String :=
  "\x22" ++ natToHex obj ++ "\x22"

/-- The state of the output `File`, together with a fault model for the
disk: write attempts are numbered from 0, and every attempt numbered
`failFrom` or later fails (`failFrom = none` models a reliable disk).
`written` is the sequence of successfully written chunks; `attempts` counts
all write attempts, successful or not. -/
structure FileState where
  written : List String
  failFrom : Option Nat
  attempts : Nat
deriving Repr, DecidableEq

/-- One `write!` to the output file: on success the chunk is appended, on
failure nothing is written; either way the attempt is counted. -/
def FileState.write (f : FileState) (s : String) : Except FileState FileState :=
  match f.failFrom with
  | none => .ok { f with written := f.written ++ [s], attempts := f.attempts + 1 }
  | some k =>
    if f.attempts < k then
      .ok { f with written := f.written ++ [s], attempts := f.attempts + 1 }
    else .error { f with attempts := f.attempts + 1 }

/-- The DOT header chunk written by `DotOutput::new`. -/
def header : String := "digraph heap \x7b\n"

/-- The DOT closing-marker chunk written by `Drop for DotOutput`. -/
def footer : String := "\x7d\n"

/-- `DotOutput::add_slot`: one directed-edge line, a single `write!`. -/
def DotOutput.add_slot (f : FileState) (src dst : String) :
    Except FileState FileState :=
  f.write ("  " ++ src ++ " -> " ++ dst ++ ";\n")

/-- How one `NodeAttr` is rendered inside a node declaration:
`key=yes `, `key="value" `, or `key=value `. -/
def attr_chunk : NodeAttr → String
  | .Flag key => key ++ "=yes "
  | .String key value => key ++ "=\x22" ++ value ++ "\x22 "
  | .Number key value => key ++ "=" ++ natToString value ++ " "

/-- `DotOutput::add_node`: writes `  id [`, then each attribute chunk, then
`];\n`, propagating the first write failure (the `?` operator). -/
def DotOutput.add_node (f : FileState) (node_id : String)
    (attrs : List NodeAttr) : Except FileState FileState := do
  let f1 ← f.write ("  " ++ node_id ++ " [")
  let f2 ← attrs.foldlM (fun g a => g.write (attr_chunk a)) f1
  f2.write "];\n"

/-- `RootSet`: the root-specific queue (a FIFO `SegQueue`) plus the
`log::warn!` messages issued for slots that load no object (each warning
records the offending slot). -/
structure RootSet where
  work_list : List ObjectReference
  warnings : List VMSlot
deriving Repr, DecidableEq

/-- `RootSet::push_node`. -/
def RootSet.push_node (rs : RootSet) (node : ObjectReference) : RootSet :=
  { rs with work_list := rs.work_list ++ [node] }

/-- `RootSet::push_slot`: load the slot; `Some` is pushed, `None` is dropped
with a `log::warn!`. -/
def RootSet.push_slot (heap : Heap) (rs : RootSet) (slot : VMSlot) : RootSet :=
  match heap.slotLoad slot with
  | some s => rs.push_node s
  | none => { rs with warnings := rs.warnings ++ [slot] }

/-- `RootSet::push_nodes`: push each object in order. -/
def RootSet.push_nodes (rs : RootSet) (nodes : List ObjectReference) : RootSet :=
  nodes.foldl RootSet.push_node rs

/-- The `RootsWorkFactory` impl for `RootSet`. -/
def RootSet.handle_root_event (heap : Heap) (rs : RootSet) :
    RootEvent → RootSet
  | .slots ss => ss.foldl (RootSet.push_slot heap) rs
  | .pinning ns => rs.push_nodes ns
  | .tpinning ns => rs.push_nodes ns

/-- A run of `scan_vm_specific_roots` against a `RootSet`. -/
def RootSet.scan_roots (heap : Heap) (events : List RootEvent)
    (rs : RootSet) : RootSet :=
  events.foldl (RootSet.handle_root_event heap) rs

/-- `HeapGraphDumper`: visited set, root-specific queue, the
"current source" cursor (a rendered `NodeId`), the general work queue, and
the output sink (instantiated at `DotOutput`, i.e. a `FileState`). -/
structure HeapGraphDumper where
  visited : List ObjectReference
  root_set : RootSet
  current_source : String
  work_list : List ObjectReference
  output : FileState
deriving Repr, DecidableEq

/-- `HeapGraphDumper::new` (the output already holds whatever
`DotOutput::new` wrote). -/
def HeapGraphDumper.new (output : FileState) : HeapGraphDumper :=
  ⟨[], ⟨[], []⟩, "unknown", [], output⟩

/-- `HeapGraphDumper::visit_slot`: load the slot with `.expect("invalid")`
(panic on `None`), render a `current_source -> target` edge with
`.unwrap()` (panic on write failure), then enqueue the target.  No slot
validation is performed.  A panic carries the file state at that moment. -/
def HeapGraphDumper.visit_slot (heap : Heap) (d : HeapGraphDumper)
    (slot : VMSlot) : Except (String × FileState) HeapGraphDumper :=
  match heap.slotLoad slot with
  | none => .error ("invalid", d.output)
  | some dst =>
    match DotOutput.add_slot d.output d.current_source (to_node_id dst) with
    | .error f => .error ("add_slot unwrap", f)
    | .ok f => .ok { d with output := f, work_list := d.work_list ++ [dst] }

/-- `HeapGraphDumper::visit_node`: skip if visited; otherwise insert into
the visited set, set the cursor, and apply the node validity predicate: on
success emit the node declaration with the VM-supplied attributes and scan
the object (each reported slot going through `visit_slot`); on failure emit
a node declaration carrying a single `error` attribute and do not scan.
Either way the cursor is reset afterwards. -/
def HeapGraphDumper.visit_node (heap : Heap) (pred : ValidityPredicate)
    (d : HeapGraphDumper) (node : ObjectReference) :
    Except (String × FileState) HeapGraphDumper :=
  if node ∈ d.visited then .ok d
  else
    let d1 : HeapGraphDumper :=
      { d with visited := d.visited ++ [node], current_source := to_node_id node }
    match pred.is_valid_node node with
    | .ok _ =>
      match DotOutput.add_node d1.output (to_node_id node) (heap.nodeAttrs node) with
      | .error f => .error ("add_node unwrap", f)
      | .ok f =>
        match (heap.scanObject node).foldlM (HeapGraphDumper.visit_slot heap)
            { d1 with output := f } with
        | .error e => .error e
        | .ok d3 => .ok { d3 with current_source := "unknown" }
    | .error err =>
      match DotOutput.add_node d1.output (to_node_id node)
          [NodeAttr.String "error" err] with
      | .error f => .error ("add_node unwrap", f)
      | .ok f => .ok { d1 with output := f, current_source := "unknown" }

/-- Result of the dumper's traversal: normal completion, a panic (carrying
the file state at panic time, for the destructor), or fuel exhaustion. -/
inductive DRes where
  | ok (d : HeapGraphDumper)
  | panicked (msg : String) (f : FileState)
  | fuelOut (d : HeapGraphDumper)
deriving Repr, DecidableEq

/-- The loop of `HeapGraphDumper::visit_roots`.  Each iteration pops at
most one object from the root queue — visiting it and then emitting a
synthetic `roots -> node` edge — and then pops the general work queue,
breaking out of the loop as soon as the latter is empty (even if the root
queue is not), else visiting the popped object, faithful to the source. -/
def HeapGraphDumper.visit_roots_loop (heap : Heap) (pred : ValidityPredicate) :
    Nat → HeapGraphDumper → DRes
  | 0, d => .fuelOut d
  | fuel + 1, d =>
    let step1 : Except (String × FileState) HeapGraphDumper :=
      match d.root_set.work_list with
      | [] => .ok d
      | node :: rest =>
        let node_id := to_node_id node
        let d1 : HeapGraphDumper :=
          { d with root_set := { d.root_set with work_list := rest } }
        match HeapGraphDumper.visit_node heap pred d1 node with
        | .error e => .error e
        | .ok d2 =>
          match DotOutput.add_slot d2.output "roots" node_id with
          | .error f => .error ("add_slot unwrap", f)
          | .ok f => .ok { d2 with output := f }
    match step1 with
    | .error (m, f) => .panicked m f
    | .ok d2 =>
      match d2.work_list with
      | [] => .ok d2
      | node :: rest =>
        match HeapGraphDumper.visit_node heap pred
            { d2 with work_list := rest } node with
        | .error (m, f) => .panicked m f
        | .ok d3 => HeapGraphDumper.visit_roots_loop heap pred fuel d3

/-- `HeapGraphDumper::visit_roots`: run the root enumeration against the
root-specific queue, then run the loop. -/
def HeapGraphDumper.visit_roots (heap : Heap) (pred : ValidityPredicate)
    (events : List RootEvent) (fuel : Nat) (d : HeapGraphDumper) : DRes :=
  HeapGraphDumper.visit_roots_loop heap pred fuel
    { d with root_set := d.root_set.scan_roots heap events }

/-- Process-level outcome of `dump_dot`: `Ok(())`, `Err(io_error)` (only
from `File::create`), a panic that unwound, a double panic inside the
destructor (process abort), or fuel exhaustion. -/
inductive DumpOutcome where
  | ok
  | ioError
  | panicked (msg : String)
  | aborted
  | fuelOut
deriving Repr, DecidableEq

/-- `graph::dump_dot`: create the file (`?` propagates a creation failure
as `Err`); `DotOutput::new` writes the header with `.unwrap()` (panic on
failure, before the destructor is armed); run `visit_roots`; on every exit
path after construction, `Drop for DotOutput` writes the closing marker
with `.unwrap()` — on the normal path a failure there panics, and on the
unwind path it double-panics, aborting the process. -/
def dump_dot (heap : Heap) (pred : ValidityPredicate) (events : List RootEvent)
    (fuel : Nat) (createFails : Bool) (failFrom : Option Nat) :
    FileState × DumpOutcome :=
  if createFails then (⟨[], failFrom, 0⟩, .ioError)
  else
    let f0 : FileState := ⟨[], failFrom, 0⟩
    match f0.write header with
    | .error f1 => (f1, .panicked "DotOutput new unwrap")
    | .ok f1 =>
      match HeapGraphDumper.visit_roots heap pred events fuel
          (HeapGraphDumper.new f1) with
      | .ok d =>
        match d.output.write footer with
        | .ok f2 => (f2, .ok)
        | .error f2 => (f2, .panicked "Drop unwrap")
      | .panicked m f =>
        match f.write footer with
        | .ok f2 => (f2, .panicked m)
        | .error f2 => (f2, .aborted)
      | .fuelOut d => (d.output, .fuelOut)

end graph

/-! ## Concrete fixtures used by the claim theorems -/

/-- A validity predicate accepting every node and slot. -/
def predOk : ValidityPredicate := ⟨fun _ => .ok (), fun _ => .ok ()⟩

/-- A validity predicate rejecting every node (accepting every slot). -/
def predBad : ValidityPredicate := ⟨fun _ => .error "bad node", fun _ => .ok ()⟩

/-- A validity predicate rejecting exactly slot `7`. -/
def predBadSlot7 : ValidityPredicate :=
  ⟨fun _ => .ok (), fun s => if s = 7 then .error "bad slot" else .ok ()⟩

/-- A heap whose every slot loads nothing and whose objects have no
outgoing slots; used with pinned roots `1` and `2`. -/
def heapTwoRoots : Heap := ⟨fun _ => none, fun _ => [], fun _ => []⟩

/-- A heap with two root slots: slot `31` loads object `10`, slot `32`
loads object `20`; no object has outgoing slots. -/
def heapC5 : Heap :=
  ⟨fun s => if s = 31 then some 10 else if s = 32 then some 20 else none,
   fun _ => [], fun _ => []⟩

/-- A heap where object `1` has one outgoing slot `7` loading object `2`. -/
def heapC3 : Heap :=
  ⟨fun s => if s = 7 then some 2 else none,
   fun n => if n = 1 then [7] else [], fun _ => []⟩

/-- The two-object graph `root -> A -> B` of claim C8: root slot `10` loads
A (object `1`), A's only slot `11` loads B (object `2`), B has no outgoing
slots; A carries a string, a number and a flag attribute. -/
def heapC8 : Heap :=
  ⟨fun s => if s = 10 then some 1 else if s = 11 then some 2 else none,
   fun n => if n = 1 then [11] else [],
   fun n => if n = 1 then
       [NodeAttr.String "kind" "objA", NodeAttr.Number "size" 16, NodeAttr.Flag "root"]
     else [NodeAttr.Number "size" 8]⟩

/-- The dumper state produced by the C1 failing input (see
`c1_visit_roots_drops_reachable_root`). -/
def c1After : graph.HeapGraphDumper :=
  ⟨[1], ⟨[2], []⟩, "unknown", [],
   ⟨[graph.header, "  \x220x1\x22 [", "];\n", "  roots -> \x220x1\x22;\n"], none, 4⟩⟩

/-- The dumper state produced by the C5 failing input (see
`c5_visit_roots_exits_with_pending_roots`). -/
def c5After : graph.HeapGraphDumper :=
  ⟨[10], ⟨[20], []⟩, "unknown", [],
   ⟨[graph.header, "  \x220xa\x22 [", "];\n", "  roots -> \x220xa\x22;\n"], none, 4⟩⟩

/-- The dumper state produced by the C3 counterexample run (see
`c3_dumper_enqueues_invalid_slot_target`). -/
def c3After : graph.HeapGraphDumper :=
  ⟨[1, 2], ⟨[], []⟩, "unknown", [],
   ⟨["  \x220x1\x22 [", "];\n", "  \x220x1\x22 -> \x220x2\x22;\n",
     "  roots -> \x220x1\x22;\n", "  \x220x2\x22 [", "];\n"], none, 6⟩⟩

/-- Structural splitter of a string into lines (at every newline),
used only to state line-level properties of the DOT output. -/
def splitLinesAux : List Char → List Char → List String
  | [], acc => [String.mk acc.reverse]
  | c :: cs, acc =>
    if c = '\n' then String.mk acc.reverse :: splitLinesAux cs []
    else splitLinesAux cs (c :: acc)

/-- The lines of a string, in order; a trailing newline yields a final
empty line. -/
def linesOf (s : String) : List String := splitLinesAux s.data []

/-- The DOT lines claim C8 expects for the `root -> A -> B` graph. -/
def c8Lines : List String :=
  ["digraph heap \x7b",
   "  \x220x1\x22 [kind=\x22objA\x22 size=16 root=yes ];",
   "  \x220x1\x22 -> \x220x2\x22;",
   "  roots -> \x220x1\x22;",
   "  \x220x2\x22 [size=8 ];",
   "\x7d"]

/-- File-state invariant: the closing marker has not been written. -/
def graph.NF (f : graph.FileState) : Prop := graph.footer ∉ f.written

/-- File-state invariant: every write attempt so far succeeded (each
attempt appended exactly one chunk). -/
def graph.LenOk (f : graph.FileState) : Prop :=
  f.written.length = f.attempts

/-- Lift a pair of file-state predicates over a write result: `P` for a
successful write, `Q` for the state carried by a failed one. -/
def graph.ExceptInvF (P Q : graph.FileState → Prop) :
    Except graph.FileState graph.FileState → Prop
  | .ok f => P f
  | .error f => Q f

/-- Lift file-state predicates over a dumper-step result: `P` of the
output on success, `Q` of the carried file state on a panic. -/
def graph.ExceptInvD (P Q : graph.FileState → Prop) :
    Except (String × graph.FileState) graph.HeapGraphDumper → Prop
  | .ok d => P d.output
  | .error e => Q e.2

/-- Lift file-state predicates over a traversal result: `P` of the output
on completion or fuel exhaustion, `Q` of the file state on a panic. -/
def graph.DResInv (P Q : graph.FileState → Prop) : graph.DRes → Prop
  | .ok d => P d.output
  | .panicked _ f => Q f
  | .fuelOut d => P d.output

/-! ## Claim theorems -/

/-- Claim C1 (code bug evidence): on a heap with two pinned roots `1` and
`2`, where root `1` has no outgoing slots, the Graph Dumper's `visit_roots`
terminates normally having visited only object `1`: the loop breaks as soon
as the general work queue is empty, even though the root queue still holds
the reachable root `2`, which is therefore never visited — contradicting
the claim that every object reachable from the roots is visited. -/
theorem c1_visit_roots_drops_reachable_root :
    graph.HeapGraphDumper.visit_roots heapTwoRoots predOk
      [RootEvent.pinning [1, 2]] 5
      (graph.HeapGraphDumper.new ⟨[graph.header], none, 1⟩) =
      graph.DRes.ok c1After ∧
    c1After.visited = [1] ∧ 2 ∉ c1After.visited ∧
    c1After.root_set.work_list = [2] := by
  refine ⟨by decide, rfl, by decide, rfl⟩

/-- Claim C5 (code bug evidence): with two ordinary root slots `31` and
`32` loading objects `10` and `20`, where `10` has no outgoing slots,
`visit_roots` returns normally after visiting only `10`: the root-specific
queue is not drained first — the loop alternates the two queues and exits
as soon as the general work queue is empty — so the root object `20` left
in the root queue is never visited and its synthetic `roots ->` edge is
never emitted, contradicting the claim. -/
theorem c5_visit_roots_exits_with_pending_roots :
    graph.HeapGraphDumper.visit_roots heapC5 predOk
      [RootEvent.slots [31, 32]] 5
      (graph.HeapGraphDumper.new ⟨[graph.header], none, 1⟩) =
      graph.DRes.ok c5After ∧
    c5After.visited = [10] ∧ 20 ∉ c5After.visited ∧
    c5After.root_set.work_list = [20] := by
  refine ⟨by decide, rfl, by decide, rfl⟩

/-- Claim C2 (counterexample): a slot that is accepted by the validity
predicate but loads no object makes `WorkFactory::push_slot` panic
(`slot.load().expect("invalid")`), so the traversal halts — it is not
silently dropped as the claim states. -/
theorem c2_push_slot_none_panics :
    WorkFactory.push_slot heapTwoRoots predOk ⟨[], []⟩ 5 =
      Except.error "invalid" ∧
    WorkFactory.push_slot heapTwoRoots predOk ⟨[], []⟩ 5 ≠
      Except.ok ⟨[], []⟩ := by
  refine ⟨rfl, fun h => ?_⟩
  rw [show WorkFactory.push_slot heapTwoRoots predOk ⟨[], []⟩ 5 =
      Except.error "invalid" from rfl] at h
  exact Except.noConfusion h

/-- Claim C2 (amended): only the Graph Dumper's root-set `push_slot` drops
a slot that loads no object (recording a `log::warn!` for it and leaving
the queue unchanged); the Sanity Checker's `WorkFactory::push_slot` (for a
slot the predicate accepts) and the Graph Dumper's `visit_slot` both panic
on such a slot via `.expect("invalid")`, halting the traversal. -/
theorem c2_none_slot_behavior (heap : Heap) (pred : ValidityPredicate)
    (wf : WorkFactory) (rs : graph.RootSet) (d : graph.HeapGraphDumper)
    (slot : VMSlot)
    (hload : heap.slotLoad slot = none)
    (hvalid : pred.is_valid_slot slot = .ok ()) :
    WorkFactory.push_slot heap pred wf slot = .error "invalid" ∧
    graph.RootSet.push_slot heap rs slot =
      { rs with warnings := rs.warnings ++ [slot] } ∧
    graph.HeapGraphDumper.visit_slot heap d slot =
      .error ("invalid", d.output) := by
  refine ⟨?_, ?_, ?_⟩ <;>
    simp [WorkFactory.push_slot, graph.RootSet.push_slot,
      graph.HeapGraphDumper.visit_slot, hload, hvalid]

/-- Witness for `c2_none_slot_behavior` at slot `5` of `heapTwoRoots`. -/
theorem c2_none_slot_behavior_witness :
    WorkFactory.push_slot heapTwoRoots predOk ⟨[], []⟩ 5 = .error "invalid" ∧
    graph.RootSet.push_slot heapTwoRoots ⟨[], []⟩ 5 = ⟨[], [5]⟩ ∧
    graph.HeapGraphDumper.visit_slot heapTwoRoots
      (graph.HeapGraphDumper.new ⟨[], none, 0⟩) 5 =
      .error ("invalid", ⟨[], none, 0⟩) :=
  c2_none_slot_behavior heapTwoRoots predOk ⟨[], []⟩ ⟨[], []⟩
    (graph.HeapGraphDumper.new ⟨[], none, 0⟩) 5 rfl rfl

/-- Claim C3 (counterexample): in the Graph Dumper, slot `7` fails the
validity predicate, yet scanning object `1` renders the edge through it
and enqueues and visits its target `2` — no validation is performed and no
record is kept, contradicting "only valid slots' targets are enqueued" and
"the slot's would-be target object is never enqueued through that edge". -/
theorem c3_dumper_enqueues_invalid_slot_target :
    predBadSlot7.is_valid_slot 7 = Except.error "bad slot" ∧
    graph.HeapGraphDumper.visit_roots heapC3 predBadSlot7
      [RootEvent.pinning [1]] 5 (graph.HeapGraphDumper.new ⟨[], none, 0⟩) =
      graph.DRes.ok c3After ∧
    2 ∈ c3After.visited ∧
    "  \x220x1\x22 -> \x220x2\x22;\n" ∈ c3After.output.written := by
  refine ⟨rfl, by decide, by decide, by decide⟩

/-- Claim C3 (amended): in the Sanity Checker, a slot that fails the
validity predicate is recorded as a `BadEdge` appended to the error log,
its target is not enqueued and no panic is raised (traversal continues);
the Graph Dumper, by contrast, never validates slots: every scanned slot
whose load yields an object has that object enqueued and rendered as a
`cursor -> target` edge, valid or not. -/
theorem c3_slot_validity_behavior (heap : Heap) (pred : ValidityPredicate)
    (wf : WorkFactory) (slot : VMSlot) (e : String)
    (d : graph.HeapGraphDumper) (dst : ObjectReference)
    (hinv : pred.is_valid_slot slot = .error e)
    (hload : heap.slotLoad slot = some dst)
    (hff : d.output.failFrom = none) :
    WorkFactory.push_slot heap pred wf slot =
      .ok { wf with errors := wf.errors ++ [Error.BadEdge slot e] } ∧
    graph.HeapGraphDumper.visit_slot heap d slot =
      .ok { d with
            output := { d.output with
              written := d.output.written ++
                ["  " ++ d.current_source ++ " -> " ++ graph.to_node_id dst ++ ";\n"],
              attempts := d.output.attempts + 1 },
            work_list := d.work_list ++ [dst] } := by
  constructor
  · simp [WorkFactory.push_slot, hinv]
  · simp [graph.HeapGraphDumper.visit_slot, graph.DotOutput.add_slot,
      graph.FileState.write, hload, hff]

/-- Witness for `c3_slot_validity_behavior`: slot `7` of `heapC3` is
rejected by `predBadSlot7` but loads object `2`. -/
theorem c3_slot_validity_behavior_witness :
    WorkFactory.push_slot heapC3 predBadSlot7 ⟨[], []⟩ 7 =
      .ok ⟨[Error.BadEdge 7 "bad slot"], []⟩ ∧
    graph.HeapGraphDumper.visit_slot heapC3
      (graph.HeapGraphDumper.new ⟨[], none, 0⟩) 7 =
      .ok ⟨[], ⟨[], []⟩, "unknown", [2],
        ⟨["  unknown -> \x220x2\x22;\n"], none, 1⟩⟩ := by
  have h := c3_slot_validity_behavior heapC3 predBadSlot7 ⟨[], []⟩ 7 "bad slot"
    (graph.HeapGraphDumper.new ⟨[], none, 0⟩) 2 rfl rfl rfl
  exact ⟨h.1, by rw [h.2]; rfl⟩

/-- Claim C4: after a completed traversal, `check_gc` returns normally when
the error log is empty, and otherwise prints every recorded error exactly
once (the printed sequence is exactly the recorded sequence, in order) and
then terminates the process with `panic!("things went poorly")`. -/
theorem c4_check_gc_reports_all_errors (heap : Heap) (pred : ValidityPredicate)
    (events : List RootEvent) (fuel : Nat) (c : SanityChecker)
    (h : SanityChecker.check_roots heap pred events fuel SanityChecker.new =
      .ok c) :
    (c.worker.errors = [] → check_gc heap pred events fuel = .ok) ∧
    (c.worker.errors ≠ [] →
      check_gc heap pred events fuel = .panicked c.worker.errors) := by
  constructor <;> intro he <;> simp [check_gc, h, he]

/-- Witness for `c4_check_gc_reports_all_errors`: an error-free run returns
normally, and a run that records `BadNode 1` prints exactly that record and
panics. -/
theorem c4_check_gc_reports_all_errors_witness :
    check_gc heapTwoRoots predOk [] 1 = .ok ∧
    check_gc heapTwoRoots predBad [RootEvent.pinning [1]] 2 =
      .panicked [Error.BadNode 1 "bad node"] :=
  ⟨(c4_check_gc_reports_all_errors heapTwoRoots predOk [] 1
      SanityChecker.new rfl).1 rfl,
   (c4_check_gc_reports_all_errors heapTwoRoots predBad [RootEvent.pinning [1]] 2
      ⟨[1], ⟨[Error.BadNode 1 "bad node"], []⟩⟩ rfl).2 (by decide)⟩

/-- Claim C7: a node that fails the validity predicate is recorded — a
`BadNode` appended to the checker's error log, an `error`-attributed node
declaration emitted by the dumper — but its conservative scanner is never
invoked: no slot of it is processed, no error records or edges are produced
for its outgoing slots, and the queues and the rest of the state are left
exactly as they were (the stated equalities capture the complete effect),
so traversal of other paths is unaffected. -/
theorem c7_invalid_node_recorded_never_scanned (heap : Heap)
    (pred : ValidityPredicate) (c : SanityChecker) (d : graph.HeapGraphDumper)
    (node : ObjectReference) (e : String)
    (hpred : pred.is_valid_node node = .error e)
    (hc : node ∉ c.visited) (hd : node ∉ d.visited)
    (hff : d.output.failFrom = none) :
    SanityChecker.check_node heap pred c node =
      .ok { c with visited := c.visited ++ [node],
                   worker := { c.worker with
                     errors := c.worker.errors ++ [Error.BadNode node e] } } ∧
    graph.HeapGraphDumper.visit_node heap pred d node =
      .ok { d with visited := d.visited ++ [node],
                   current_source := "unknown",
                   output := { d.output with
                     written := d.output.written ++
                       ["  " ++ graph.to_node_id node ++ " [",
                        "error=\x22" ++ e ++ "\x22 ", "];\n"],
                     attempts := d.output.attempts + 3 } } := by
  constructor
  · simp [SanityChecker.check_node, hpred, hc, WorkFactory.push_error]
  · simp [graph.HeapGraphDumper.visit_node, hd, hpred, graph.DotOutput.add_node,
      graph.attr_chunk, graph.FileState.write, hff, List.foldlM, bind,
      Except.bind, pure, Except.pure]

/-- Witness for `c7_invalid_node_recorded_never_scanned` at node `1` with
`predBad`, starting from fresh checker and dumper states. -/
theorem c7_invalid_node_recorded_never_scanned_witness :
    SanityChecker.check_node heapC3 predBad SanityChecker.new 1 =
      .ok ⟨[1], ⟨[Error.BadNode 1 "bad node"], []⟩⟩ ∧
    graph.HeapGraphDumper.visit_node heapC3 predBad
      (graph.HeapGraphDumper.new ⟨[], none, 0⟩) 1 =
      .ok ⟨[1], ⟨[], []⟩, "unknown", [],
        ⟨["  \x220x1\x22 [", "error=\x22bad node\x22 ", "];\n"], none, 3⟩⟩ := by
  have h := c7_invalid_node_recorded_never_scanned heapC3 predBad
    SanityChecker.new (graph.HeapGraphDumper.new ⟨[], none, 0⟩) 1 "bad node"
    rfl (by decide) (by decide) rfl
  exact ⟨h.1.trans rfl, h.2.trans rfl⟩

/-- Claim C8: dumping the two-object graph `root -> A -> B` (B without
outgoing slots) produces exactly: the header line; one node declaration
line each for A and B with attributes rendered as `key=value` pairs
(string values quoted, numbers bare, flags as `key=yes`); the edge lines
`roots -> A` and `A -> B`; and the footer line — with no duplicate node or
edge lines (the line list is duplicate-free). -/
theorem c8_dot_output_two_object_graph :
    graph.dump_dot heapC8 predOk [RootEvent.slots [10]] 10 false none =
      (⟨[graph.header, "  \x220x1\x22 [", "kind=\x22objA\x22 ", "size=16 ",
         "root=yes ", "];\n", "  \x220x1\x22 -> \x220x2\x22;\n",
         "  roots -> \x220x1\x22;\n", "  \x220x2\x22 [", "size=8 ", "];\n",
         graph.footer], none, 12⟩, graph.DumpOutcome.ok) ∧
    String.join
        (graph.dump_dot heapC8 predOk [RootEvent.slots [10]] 10 false none).1.written =
      "digraph heap \x7b\n  \x220x1\x22 [kind=\x22objA\x22 size=16 root=yes ];\n  \x220x1\x22 -> \x220x2\x22;\n  roots -> \x220x1\x22;\n  \x220x2\x22 [size=8 ];\n\x7d\n" ∧
    linesOf (String.join
        (graph.dump_dot heapC8 predOk [RootEvent.slots [10]] 10 false none).1.written) =
      c8Lines ++ [""] ∧
    c8Lines.Nodup := by
  refine ⟨by decide, by decide, by decide, by decide⟩

/-- Claim C10: `push_nodes` (used by the pinning and tpinning root
callbacks) enqueues a batch of objects directly, consulting no validity
predicate; yet a trusted-but-invalid object is still checked at visit
time: a full `check_roots` run over the single pinned invalid root records
exactly one `BadNode` for it, and a full `visit_roots` run over the same
root emits exactly one `error`-attributed node declaration for it (plus
its synthetic `roots ->` edge). -/
theorem c10_trusted_objects_validated_at_visit (heap : Heap)
    (pred : ValidityPredicate) (wf : WorkFactory)
    (nodes : List ObjectReference) (node : ObjectReference) (e : String)
    (h : pred.is_valid_node node = .error e) :
    WorkFactory.push_nodes wf nodes =
      { wf with work_list := wf.work_list ++ nodes } ∧
    SanityChecker.check_roots heap pred [RootEvent.pinning [node]] 2
      SanityChecker.new =
      .ok ⟨[node], ⟨[Error.BadNode node e], []⟩⟩ ∧
    graph.HeapGraphDumper.visit_roots heap pred [RootEvent.pinning [node]] 1
      (graph.HeapGraphDumper.new ⟨[], none, 0⟩) =
      graph.DRes.ok ⟨[node], ⟨[], []⟩, "unknown", [],
        ⟨["  " ++ graph.to_node_id node ++ " [", "error=\x22" ++ e ++ "\x22 ",
          "];\n", "  roots -> " ++ graph.to_node_id node ++ ";\n"],
         none, 4⟩⟩ := by
  refine ⟨rfl, ?_, ?_⟩
  · simp [SanityChecker.check_roots, scan_vm_specific_roots, List.foldlM,
      WorkFactory.handle_root_event, WorkFactory.push_nodes, SanityChecker.new,
      SanityChecker.drain, SanityChecker.check_node, h, WorkFactory.push_error,
      bind, Except.bind, pure, Except.pure]
  · simp [graph.HeapGraphDumper.visit_roots, graph.HeapGraphDumper.new,
      graph.RootSet.scan_roots, graph.RootSet.handle_root_event,
      graph.RootSet.push_nodes, graph.RootSet.push_node, List.foldl,
      graph.HeapGraphDumper.visit_roots_loop, graph.HeapGraphDumper.visit_node,
      h, graph.DotOutput.add_node, graph.DotOutput.add_slot, graph.attr_chunk,
      graph.FileState.write, List.foldlM, bind, Except.bind, pure, Except.pure]

/-- Witness for `c10_trusted_objects_validated_at_visit` at pinned root `1`
with `predBad`. -/
theorem c10_trusted_objects_validated_at_visit_witness :
    WorkFactory.push_nodes ⟨[], []⟩ [1, 2] = ⟨[], [1, 2]⟩ ∧
    SanityChecker.check_roots heapTwoRoots predBad [RootEvent.pinning [1]] 2
      SanityChecker.new =
      .ok ⟨[1], ⟨[Error.BadNode 1 "bad node"], []⟩⟩ ∧
    graph.HeapGraphDumper.visit_roots heapTwoRoots predBad
      [RootEvent.pinning [1]] 1 (graph.HeapGraphDumper.new ⟨[], none, 0⟩) =
      graph.DRes.ok ⟨[1], ⟨[], []⟩, "unknown", [],
        ⟨["  " ++ graph.to_node_id 1 ++ " [", "error=\x22bad node\x22 ",
          "];\n", "  roots -> " ++ graph.to_node_id 1 ++ ";\n"],
         none, 4⟩⟩ := by
  have h := c10_trusted_objects_validated_at_visit heapTwoRoots predBad
    ⟨[], []⟩ [1, 2] 1 "bad node" rfl
  exact ⟨h.1.trans rfl, h.2.1, h.2.2⟩

namespace graph

/-- Strings of different length differ; the closing marker has length 2. -/
theorem ne_footer_of_length {s : String} (h : s.length ≠ 2) : s ≠ footer :=
  fun he => h (he ▸ rfl)

/-- The digit accumulator never shrinks its accumulator. -/
theorem natDigitsAux_length_le :
    ∀ (fuel n : Nat) (acc : List Char),
      acc.length ≤ (natDigitsAux fuel n acc).length
  | 0, _, _ => Nat.le_refl _
  | fuel + 1, n, acc => by
    simp only [natDigitsAux]
    split
    · simp
    · exact Nat.le_trans (by simp)
        (natDigitsAux_length_le fuel (n / 10) (digitChar (n % 10) :: acc))

/-- Decimal rendering is never empty. -/
theorem natToString_length_pos (n : Nat) : 0 < (natToString n).length := by
  show 0 < (natDigitsAux (n + 1) n []).length
  simp only [natDigitsAux]
  split
  · simp
  · exact Nat.lt_of_lt_of_le (by simp)
      (natDigitsAux_length_le n (n / 10) [digitChar (n % 10)])

/-- No attribute chunk is the closing marker. -/
theorem attr_chunk_ne_footer (a : NodeAttr) : attr_chunk a ≠ footer := by
  apply ne_footer_of_length
  cases a with
  | Flag key =>
    simp only [attr_chunk, String.length_append]
    have h1 : ("=yes " : String).length = 5 := rfl
    omega
  | String key value =>
    simp only [attr_chunk, String.length_append]
    have h1 : ("=\x22" : String).length = 2 := rfl
    have h2 : ("\x22 " : String).length = 2 := rfl
    omega
  | Number key value =>
    simp only [attr_chunk, String.length_append]
    have h1 : ("=" : String).length = 1 := rfl
    have h2 : (" " : String).length = 1 := rfl
    have h3 := natToString_length_pos value
    omega

/-- No node-declaration opening chunk is the closing marker. -/
theorem open_chunk_ne_footer (id : String) : ("  " ++ id ++ " [") ≠ footer := by
  apply ne_footer_of_length
  simp only [String.length_append]
  have h1 : ("  " : String).length = 2 := rfl
  have h2 : (" [" : String).length = 2 := rfl
  omega

/-- No edge chunk is the closing marker. -/
theorem edge_chunk_ne_footer (src dst : String) :
    ("  " ++ src ++ " -> " ++ dst ++ ";\n") ≠ footer := by
  apply ne_footer_of_length
  simp only [String.length_append]
  have h1 : ("  " : String).length = 2 := rfl
  have h2 : (" -> " : String).length = 4 := rfl
  have h3 : (";\n" : String).length = 2 := rfl
  omega

/-- The node-declaration closing chunk is not the closing marker. -/
theorem close_chunk_ne_footer : ("];\n" : String) ≠ footer := by decide

/-- The header is not the closing marker. -/
theorem header_ne_footer : header ≠ footer := by decide

/-- The closing marker appears in neither of the states of a write of a
non-marker chunk: success appends only that chunk, failure appends
nothing. -/
theorem write_NF {f : FileState} {s : String} (hs : s ≠ footer) (hf : NF f) :
    ExceptInvF NF NF (f.write s) := by
  have hs' := Ne.symm hs
  unfold FileState.write
  unfold NF at hf
  cases f.failFrom with
  | none => simp [ExceptInvF, NF, hf, hs']
  | some k =>
    by_cases h : f.attempts < k
    · simp [h, ExceptInvF, NF, hf, hs']
    · simp [h, ExceptInvF, NF, hf]

/-- A successful write grows `written` in step with `attempts`; a failed
write is covered by the trivial predicate. -/
theorem write_LenOk {f : FileState} (s : String) (hf : LenOk f) :
    ExceptInvF LenOk (fun _ => True) (f.write s) := by
  unfold FileState.write
  unfold LenOk at hf
  cases f.failFrom with
  | none => simp [ExceptInvF, LenOk, hf]
  | some k =>
    by_cases h : f.attempts < k
    · simp [h, ExceptInvF, LenOk, hf]
    · simp [h, ExceptInvF]

/-- Folding attribute writes preserves any invariant preserved by single
non-marker writes. -/
theorem attr_fold_inv {P Q : FileState → Prop}
    (hw : ∀ (f : FileState) (s : String), s ≠ footer → P f →
      ExceptInvF P Q (f.write s)) :
    ∀ (attrs : List NodeAttr) (f : FileState), P f →
      ExceptInvF P Q (attrs.foldlM (fun g a => g.write (attr_chunk a)) f)
  | [], f, hf => by simpa [List.foldlM, ExceptInvF, pure, Except.pure] using hf
  | a :: attrs, f, hf => by
    rw [List.foldlM_cons]
    have h1 := hw f (attr_chunk a) (attr_chunk_ne_footer a) hf
    cases hwr : f.write (attr_chunk a) with
    | error g =>
      rw [hwr] at h1
      simp only [hwr, bind, Except.bind]
      exact h1
    | ok g =>
      rw [hwr] at h1
      simp only [hwr, bind, Except.bind]
      exact attr_fold_inv hw attrs g h1

/-- `add_node` preserves any invariant preserved by single non-marker
writes. -/
theorem add_node_inv {P Q : FileState → Prop}
    (hw : ∀ (f : FileState) (s : String), s ≠ footer → P f →
      ExceptInvF P Q (f.write s))
    (f : FileState) (id : String) (attrs : List NodeAttr) (hf : P f) :
    ExceptInvF P Q (DotOutput.add_node f id attrs) := by
  unfold DotOutput.add_node
  have h1 := hw f _ (open_chunk_ne_footer id) hf
  cases h1w : f.write ("  " ++ id ++ " [") with
  | error g =>
    rw [h1w] at h1
    simp only [h1w, bind, Except.bind]
    exact h1
  | ok g =>
    rw [h1w] at h1
    simp only [h1w, bind, Except.bind]
    have h2 := attr_fold_inv hw attrs g h1
    cases h2w : attrs.foldlM (fun g a => g.write (attr_chunk a)) g with
    | error g2 =>
      rw [h2w] at h2
      simp only [h2w]
      exact h2
    | ok g2 =>
      rw [h2w] at h2
      simp only [h2w]
      have h3 := hw g2 _ close_chunk_ne_footer h2
      cases h3w : g2.write "];\n" with
      | error g3 => rw [h3w] at h3; exact h3
      | ok g3 => rw [h3w] at h3; exact h3

/-- `add_slot` preserves any invariant preserved by single non-marker
writes. -/
theorem add_slot_inv {P Q : FileState → Prop}
    (hw : ∀ (f : FileState) (s : String), s ≠ footer → P f →
      ExceptInvF P Q (f.write s))
    (f : FileState) (src dst : String) (hf : P f) :
    ExceptInvF P Q (DotOutput.add_slot f src dst) := by
  unfold DotOutput.add_slot
  exact hw f _ (edge_chunk_ne_footer src dst) hf

/-- `visit_slot` preserves write invariants, the load-`none` panic
carrying the untouched state. -/
theorem visit_slot_inv {P Q : FileState → Prop}
    (hw : ∀ (f : FileState) (s : String), s ≠ footer → P f →
      ExceptInvF P Q (f.write s))
    (hPQ : ∀ f, P f → Q f) (heap : Heap)
    (d : HeapGraphDumper) (slot : VMSlot) (hf : P d.output) :
    ExceptInvD P Q (HeapGraphDumper.visit_slot heap d slot) := by
  unfold HeapGraphDumper.visit_slot
  cases hl : heap.slotLoad slot with
  | none => dsimp only; exact hPQ _ hf
  | some dst =>
    dsimp only
    have h1 := add_slot_inv hw d.output d.current_source (to_node_id dst) hf
    cases hw1 : DotOutput.add_slot d.output d.current_source (to_node_id dst) with
    | error g => rw [hw1] at h1; simp only [hw1]; exact h1
    | ok g => rw [hw1] at h1; simp only [hw1]; exact h1

/-- Folding `visit_slot` over the scanner's slots preserves write
invariants. -/
theorem scan_fold_inv {P Q : FileState → Prop}
    (hw : ∀ (f : FileState) (s : String), s ≠ footer → P f →
      ExceptInvF P Q (f.write s))
    (hPQ : ∀ f, P f → Q f) (heap : Heap) :
    ∀ (slots : List VMSlot) (d : HeapGraphDumper), P d.output →
      ExceptInvD P Q (slots.foldlM (HeapGraphDumper.visit_slot heap) d)
  | [], d, hf => by simpa [List.foldlM, ExceptInvD, pure, Except.pure] using hf
  | s :: slots, d, hf => by
    rw [List.foldlM_cons]
    have h1 := visit_slot_inv hw hPQ heap d s hf
    cases hv : HeapGraphDumper.visit_slot heap d s with
    | error e =>
      rw [hv] at h1
      simp only [hv, bind, Except.bind]
      exact h1
    | ok d1 =>
      rw [hv] at h1
      simp only [hv, bind, Except.bind]
      exact scan_fold_inv hw hPQ heap slots d1 h1

/-- `visit_node` preserves write invariants. -/
theorem visit_node_inv {P Q : FileState → Prop}
    (hw : ∀ (f : FileState) (s : String), s ≠ footer → P f →
      ExceptInvF P Q (f.write s))
    (hPQ : ∀ f, P f → Q f) (heap : Heap) (pred : ValidityPredicate)
    (d : HeapGraphDumper) (node : ObjectReference) (hf : P d.output) :
    ExceptInvD P Q (HeapGraphDumper.visit_node heap pred d node) := by
  unfold HeapGraphDumper.visit_node
  by_cases hvis : node ∈ d.visited
  · simp only [if_pos hvis]; exact hf
  · simp only [if_neg hvis]
    cases hp : pred.is_valid_node node with
    | ok u =>
      dsimp only
      have h1 := add_node_inv hw d.output (to_node_id node) (heap.nodeAttrs node) hf
      cases h1w : DotOutput.add_node d.output (to_node_id node) (heap.nodeAttrs node) with
      | error g => rw [h1w] at h1; simp only [h1w]; exact h1
      | ok g =>
        rw [h1w] at h1
        simp only [h1w]
        have h2 := scan_fold_inv hw hPQ heap (heap.scanObject node)
          { d with visited := d.visited ++ [node],
                   current_source := to_node_id node, output := g } h1
        cases h2w : (heap.scanObject node).foldlM (HeapGraphDumper.visit_slot heap)
            { d with visited := d.visited ++ [node],
                     current_source := to_node_id node, output := g } with
        | error e => rw [h2w] at h2; simp only [h2w]; exact h2
        | ok d3 => rw [h2w] at h2; simp only [h2w]; exact h2
    | error err =>
      dsimp only
      have h1 := add_node_inv hw d.output (to_node_id node)
        [NodeAttr.String "error" err] hf
      cases h1w : DotOutput.add_node d.output (to_node_id node)
          [NodeAttr.String "error" err] with
      | error g => rw [h1w] at h1; simp only [h1w]; exact h1
      | ok g => rw [h1w] at h1; simp only [h1w]; exact h1

/-- The whole `visit_roots` loop preserves write invariants, on every
terminal result. -/
theorem visit_roots_loop_inv {P Q : FileState → Prop}
    (hw : ∀ (f : FileState) (s : String), s ≠ footer → P f →
      ExceptInvF P Q (f.write s))
    (hPQ : ∀ f, P f → Q f) (heap : Heap) (pred : ValidityPredicate) :
    ∀ (fuel : Nat) (d : HeapGraphDumper), P d.output →
      DResInv P Q (HeapGraphDumper.visit_roots_loop heap pred fuel d)
  | 0, d, hf => hf
  | fuel + 1, d, hf => by
    unfold HeapGraphDumper.visit_roots_loop
    cases hr : d.root_set.work_list with
    | nil =>
      dsimp only
      cases hwl : d.work_list with
      | nil => simp only [hwl]; exact hf
      | cons node rest =>
        simp only [hwl]
        have h1 := visit_node_inv hw hPQ heap pred { d with work_list := rest } node hf
        cases hv : HeapGraphDumper.visit_node heap pred { d with work_list := rest } node with
        | error e =>
          rw [hv] at h1
          simp only [hv]
          obtain ⟨m, f⟩ := e
          exact h1
        | ok d3 =>
          rw [hv] at h1
          simp only [hv]
          exact visit_roots_loop_inv hw hPQ heap pred fuel d3 h1
    | cons node rest =>
      dsimp only
      have h1 := visit_node_inv hw hPQ heap pred
        { d with root_set := { d.root_set with work_list := rest } } node hf
      cases hv : HeapGraphDumper.visit_node heap pred
          { d with root_set := { d.root_set with work_list := rest } } node with
      | error e =>
        rw [hv] at h1
        simp only [hv]
        obtain ⟨m, f⟩ := e
        exact h1
      | ok d2 =>
        rw [hv] at h1
        simp only [hv]
        have h2 := add_slot_inv hw d2.output "roots" (to_node_id node) h1
        cases hw2 : DotOutput.add_slot d2.output "roots" (to_node_id node) with
        | error g => rw [hw2] at h2; simp only [hw2]; exact h2
        | ok g =>
          rw [hw2] at h2
          simp only [hw2]
          cases hwl : d2.work_list with
          | nil => simp only [hwl]; exact h2
          | cons node2 rest2 =>
            simp only [hwl]
            have h3 := visit_node_inv hw hPQ heap pred
              { d2 with output := g, work_list := rest2 } node2 h2
            cases hv2 : HeapGraphDumper.visit_node heap pred
                { d2 with output := g, work_list := rest2 } node2 with
            | error e =>
              rw [hv2] at h3
              simp only [hv2]
              obtain ⟨m, f⟩ := e
              exact h3
            | ok d3 =>
              rw [hv2] at h3
              simp only [hv2]
              exact visit_roots_loop_inv hw hPQ heap pred fuel d3 h3

/-- `visit_roots` preserves write invariants (root enumeration touches no
output). -/
theorem visit_roots_inv {P Q : FileState → Prop}
    (hw : ∀ (f : FileState) (s : String), s ≠ footer → P f →
      ExceptInvF P Q (f.write s))
    (hPQ : ∀ f, P f → Q f) (heap : Heap) (pred : ValidityPredicate)
    (events : List RootEvent) (fuel : Nat) (d : HeapGraphDumper)
    (hf : P d.output) :
    DResInv P Q (HeapGraphDumper.visit_roots heap pred events fuel d) :=
  visit_roots_loop_inv hw hPQ heap pred fuel
    { d with root_set := d.root_set.scan_roots heap events } hf

/-- A successful write appends exactly its chunk. -/
theorem write_ok_written {f f' : FileState} {s : String}
    (h : f.write s = .ok f') : f'.written = f.written ++ [s] := by
  unfold FileState.write at h
  cases hff : f.failFrom with
  | none => rw [hff] at h; cases h; rfl
  | some k =>
    rw [hff] at h
    dsimp only at h
    by_cases hk : f.attempts < k
    · rw [if_pos hk] at h; cases h; rfl
    · rw [if_neg hk] at h; cases h

/-- A failed write appends nothing. -/
theorem write_error_written {f f' : FileState} {s : String}
    (h : f.write s = .error f') : f'.written = f.written := by
  unfold FileState.write at h
  cases hff : f.failFrom with
  | none => rw [hff] at h; cases h
  | some k =>
    rw [hff] at h
    dsimp only at h
    by_cases hk : f.attempts < k
    · rw [if_pos hk] at h; cases h
    · rw [if_neg hk] at h; cases h; rfl

end graph

/-- Claim C6 (counterexample): with a disk that fails from the second write
attempt on, the dump of the `root -> A -> B` graph ends in a process abort
(the failed node write panics via `unwrap`, and the destructor's closing
write fails too) — the write failure is not surfaced as the `Result` of
`dump_dot` as the claim states. -/
theorem c6_write_failure_not_returned :
    graph.dump_dot heapC8 predOk [RootEvent.slots [10]] 10 false (some 2) =
      (⟨[graph.header, "  \x220x1\x22 ["], some 2, 4⟩,
        graph.DumpOutcome.aborted) ∧
    graph.DumpOutcome.aborted ≠ graph.DumpOutcome.ioError ∧
    graph.DumpOutcome.aborted ≠ graph.DumpOutcome.ok := by
  refine ⟨by decide, by decide, by decide⟩

/-- Claim C6 (amended): only a failure to create the output file is
returned to the caller as `Err`; an I/O failure on any later write
(header, node declaration, edge line, or closing marker) makes the dump
panic or abort — a hard process-level failure, never an `Err` return — and
no write is retried or silently dropped: a dump that returns `Ok` made
every write attempt succeed exactly once (`LenOk`: one chunk appended per
attempt). -/
theorem c6_io_failure_behavior (heap : Heap) (pred : ValidityPredicate)
    (events : List RootEvent) (fuel : Nat) (createFails : Bool)
    (failFrom : Option Nat) :
    (graph.dump_dot heap pred events fuel true failFrom).2 =
      graph.DumpOutcome.ioError ∧
    ((graph.dump_dot heap pred events fuel createFails failFrom).2 =
        graph.DumpOutcome.ioError → createFails = true) ∧
    ((graph.dump_dot heap pred events fuel createFails failFrom).2 =
        graph.DumpOutcome.ok →
      graph.LenOk (graph.dump_dot heap pred events fuel createFails failFrom).1) := by
  refine ⟨rfl, ?_, ?_⟩
  · cases createFails with
    | true => intro _; rfl
    | false =>
      intro h
      exfalso
      unfold graph.dump_dot at h
      simp only [Bool.false_eq_true, if_false] at h
      cases hw1 : graph.FileState.write ⟨[], failFrom, 0⟩ graph.header with
      | error f1 => simp only [hw1] at h; simp at h
      | ok f1 =>
        simp only [hw1] at h
        cases hv : graph.HeapGraphDumper.visit_roots heap pred events fuel
            (graph.HeapGraphDumper.new f1) with
        | ok d =>
          simp only [hv] at h
          cases hw2 : d.output.write graph.footer with
          | ok f2 => simp only [hw2] at h; simp at h
          | error f2 => simp only [hw2] at h; simp at h
        | panicked m f =>
          simp only [hv] at h
          cases hw2 : f.write graph.footer with
          | ok f2 => simp only [hw2] at h; simp at h
          | error f2 => simp only [hw2] at h; simp at h
        | fuelOut d => simp only [hv] at h; simp at h
  · cases createFails with
    | true =>
      intro h
      exact absurd h (by simp [graph.dump_dot])
    | false =>
      intro h
      unfold graph.dump_dot at h ⊢
      simp only [Bool.false_eq_true, if_false] at h ⊢
      have hbase : graph.LenOk ⟨[], failFrom, 0⟩ := rfl
      have h1 := graph.write_LenOk (f := ⟨[], failFrom, 0⟩) graph.header hbase
      cases hw1 : graph.FileState.write ⟨[], failFrom, 0⟩ graph.header with
      | error f1 => simp only [hw1] at h; simp at h
      | ok f1 =>
        rw [hw1] at h1
        simp only [hw1] at h ⊢
        have hv' := graph.visit_roots_inv (P := graph.LenOk) (Q := fun _ => True)
          (fun f s _ hf => graph.write_LenOk s hf) (fun _ _ => trivial)
          heap pred events fuel (graph.HeapGraphDumper.new f1) h1
        cases hv : graph.HeapGraphDumper.visit_roots heap pred events fuel
            (graph.HeapGraphDumper.new f1) with
        | ok d =>
          rw [hv] at hv'
          simp only [hv] at h ⊢
          have h2 := graph.write_LenOk (f := d.output) graph.footer hv'
          cases hw2 : d.output.write graph.footer with
          | ok f2 => rw [hw2] at h2; simp only [hw2] at h ⊢; exact h2
          | error f2 => simp only [hw2] at h; simp at h
        | panicked m f =>
          simp only [hv] at h
          cases hw2 : f.write graph.footer with
          | ok f2 => simp only [hw2] at h; simp at h
          | error f2 => simp only [hw2] at h; simp at h
        | fuelOut d => simp only [hv] at h; simp at h


/-- Witness for `c6_io_failure_behavior`: a failed creation returns `Err`,
and the successful C8 dump made every write succeed exactly once. -/
theorem c6_io_failure_behavior_witness :
    (graph.dump_dot heapC8 predOk [RootEvent.slots [10]] 10 true none).2 =
      graph.DumpOutcome.ioError ∧
    graph.LenOk (graph.dump_dot heapC8 predOk [RootEvent.slots [10]] 10 false none).1 :=
  ⟨(c6_io_failure_behavior heapC8 predOk [RootEvent.slots [10]] 10 false none).1,
   (c6_io_failure_behavior heapC8 predOk [RootEvent.slots [10]] 10 false none).2.2
     (by decide)⟩

/-- Claim C9 (counterexample): with a disk failing from the second write
attempt on, the header is written (the sink is opened) but the node write
fails, and the destructor's closing write fails as well (process abort):
the output lacks the closing marker, refuting "the output never lacks the
closing marker". -/
theorem c9_output_can_lack_closing_marker :
    graph.dump_dot heapC8 predOk [RootEvent.slots [10]] 10 false (some 1) =
      (⟨[graph.header], some 1, 3⟩, graph.DumpOutcome.aborted) ∧
    graph.header ∈ [graph.header] ∧ graph.footer ∉ [graph.header] := by
  refine ⟨by decide, by decide, by decide⟩

/-- Claim C9 (amended): the closing-marker write is attempted exactly once
on every exit path (the destructor), but the marker reaches the output
only if that write succeeds: the output never contains the closing marker
twice (its count is at most 1 on every run), and a dump that returns `Ok`
has it exactly once, as the final chunk; when the closing write itself
fails the output lacks the marker and the dump panics or aborts. -/
theorem c9_closing_marker_behavior (heap : Heap) (pred : ValidityPredicate)
    (events : List RootEvent) (fuel : Nat) (createFails : Bool)
    (failFrom : Option Nat) :
    ((graph.dump_dot heap pred events fuel createFails failFrom).1.written.count
        graph.footer ≤ 1) ∧
    ((graph.dump_dot heap pred events fuel createFails failFrom).2 =
        graph.DumpOutcome.ok →
      (graph.dump_dot heap pred events fuel createFails failFrom).1.written.count
          graph.footer = 1 ∧
      (graph.dump_dot heap pred events fuel createFails failFrom).1.written.getLast? =
        some graph.footer) := by
  cases createFails with
  | true =>
    constructor
    · simp [graph.dump_dot]
    · intro h; exact absurd h (by simp [graph.dump_dot])
  | false =>
    unfold graph.dump_dot
    simp only [Bool.false_eq_true, if_false]
    have hbase : graph.NF ⟨[], failFrom, 0⟩ := by simp [graph.NF]
    have h1 := graph.write_NF graph.header_ne_footer hbase
    cases hw1 : graph.FileState.write ⟨[], failFrom, 0⟩ graph.header with
    | error f1 =>
      rw [hw1] at h1
      simp only [hw1]
      constructor
      · simp [List.count_eq_zero.mpr h1]
      · intro h; simp at h
    | ok f1 =>
      rw [hw1] at h1
      simp only [hw1]
      have hv' := graph.visit_roots_inv (P := graph.NF) (Q := graph.NF)
        (fun _ s hs hf => graph.write_NF hs hf) (fun _ hf => hf)
        heap pred events fuel (graph.HeapGraphDumper.new f1) h1
      cases hv : graph.HeapGraphDumper.visit_roots heap pred events fuel
          (graph.HeapGraphDumper.new f1) with
      | ok d =>
        rw [hv] at hv'
        simp only [hv]
        cases hw2 : d.output.write graph.footer with
        | ok f2 =>
          have hwr := graph.write_ok_written hw2
          constructor
          · simp [hwr, List.count_append, List.count_eq_zero.mpr hv']
          · intro _
            constructor
            · simp [hwr, List.count_append, List.count_eq_zero.mpr hv']
            · rw [hwr]; exact List.getLast?_concat _
        | error f2 =>
          have hwr := graph.write_error_written hw2
          constructor
          · rw [hwr]; simp [List.count_eq_zero.mpr hv']
          · intro h; simp at h
      | panicked m f =>
        rw [hv] at hv'
        simp only [hv]
        cases hw2 : f.write graph.footer with
        | ok f2 =>
          have hwr := graph.write_ok_written hw2
          constructor
          · simp [hwr, List.count_append, List.count_eq_zero.mpr hv']
          · intro h; simp at h
        | error f2 =>
          have hwr := graph.write_error_written hw2
          constructor
          · rw [hwr]; simp [List.count_eq_zero.mpr hv']
          · intro h; simp at h
      | fuelOut d =>
        rw [hv] at hv'
        simp only [hv]
        constructor
        · simp [List.count_eq_zero.mpr hv']
        · intro h; simp at h

/-- Witness for `c9_closing_marker_behavior`: the successful C8 dump ends
with exactly one closing marker. -/
theorem c9_closing_marker_behavior_witness :
    (graph.dump_dot heapC8 predOk [RootEvent.slots [10]] 10 false none).1.written.count
        graph.footer = 1 ∧
    (graph.dump_dot heapC8 predOk [RootEvent.slots [10]] 10 false none).1.written.getLast? =
      some graph.footer :=
  (c9_closing_marker_behavior heapC8 predOk [RootEvent.slots [10]] 10 false none).2
    (by decide)
